import Mathlib

/-!
# Verification of the Baileys instance service (`frontend/baileys-service.js`)

A shallow embedding of the instance-lifecycle service: the JavaScript value
universe needed by the handlers, the `InstanceStore` catalog, the
`BaileysManager` session registry and connection-event reconciler, the
`buildMessageContent` validator, and the `POST /messages` route, together
with theorems settling the specified behaviour.
-/

namespace Baileys

/-- A JavaScript value, as far as the service observes one: `undefined`,
`null`, booleans, numbers (modelled as integers; the service never does
fractional arithmetic on payload values), strings, and objects modelled as
ordered field lists. -/
inductive JSValue where
  | undefined
  | null
  | bool (b : Bool)
  | num (n : Int)
  | str (s : String)
  | obj (fields : List (String × JSValue))
  deriving Repr

/-- JavaScript truthiness of a value (`if (v)`); `undefined`, `null`,
`false`, `0` and `""` are falsy, every object is truthy. -/
def truthy : JSValue → Bool
  | .undefined => false
  | .null => false
  | .bool b => b
  | .num n => n != 0
  | .str s => s != ""
  | .obj _ => true

/-- JavaScript `typeof v`; note `typeof null === "object"`. -/
def jsTypeof : JSValue → String
  | .undefined => "undefined"
  | .null => "object"
  | .bool _ => "boolean"
  | .num _ => "number"
  | .str _ => "string"
  | .obj _ => "object"

/-- First binding of key `k` in an association list (used both for JS
object fields and for the id-keyed `Map`s of the service). -/
def lookupField {α : Type} : List (String × α) → String → Option α
  | [], _ => none
  | (k', v) :: rest, k => if k' == k then some v else lookupField rest k

/-- JavaScript property access `v.k`: the field's value on an object holding
the key, `undefined` otherwise. -/
def getField (v : JSValue) (k : String) : JSValue :=
  match v with
  | .obj fields => (lookupField fields k).getD .undefined
  | _ => .undefined

/-- JavaScript `String.prototype.trim`: strip leading and trailing
whitespace. (Defined over the character list so that it reduces in the
kernel; `String.trim` in core is equivalent on the inputs we use.) -/
def jsTrim (s : String) : String :=
  ⟨((s.data.dropWhile Char.isWhitespace).reverse.dropWhile Char.isWhitespace).reverse⟩

/-- `Map.prototype.set`: replace the binding in place when the key is
present, append otherwise (JS `Map` preserves insertion order). -/
def mapSet {α : Type} : List (String × α) → String → α → List (String × α)
  | [], k, v => [(k, v)]
  | (k', v') :: rest, k, v =>
    if k' == k then (k, v) :: rest else (k', v') :: mapSet rest k v

/-- `Map.prototype.delete`: remove the (unique) binding for the key, if
present. -/
def mapDelete {α : Type} : List (String × α) → String → List (String × α)
  | [], _ => []
  | (k', v) :: rest, k => if k' == k then rest else (k', v) :: mapDelete rest k

/-- The error codes the service attaches to thrown `Error`s (`err.code`);
`missing_field` stands for the code-less `Error`s thrown on a missing
instance id in `InstanceStore.create`. -/
inductive ErrCode where
  | invalid_payload
  | instance_exists
  | invalid_status
  | instance_not_found
  | missing_field
  | internal
  deriving Repr, DecidableEq

/-- `ALLOWED_MEDIA_TYPES` from the source. -/
def ALLOWED_MEDIA_TYPES : List String :=
  ["image", "video", "audio", "document", "sticker"]

/-- `ALLOWED_STATUSES` from the source. -/
def ALLOWED_STATUSES : List String :=
  ["pending_qr", "ready", "disconnected"]

/-- `ALLOWED_STATUSES.has(v)` on an arbitrary JS value: only the three
status strings are members. -/
def allowedStatus (v : JSValue) : Bool :=
  match v with
  | .str s => ALLOWED_STATUSES.contains s
  | _ => false

/-- `buildMessageContent(payload)` from the source: validates
`payload.message`, then discriminates on `payload.type` (`text` / `media` /
`template`), throwing `invalid_payload` in every rejection branch. -/
def buildMessageContent (payload : JSValue) : Except ErrCode JSValue :=
  let message := getField payload "message"
  if !truthy message || jsTypeof message != "object" then
    .error .invalid_payload
  else
    match getField payload "type" with
    | .str tys =>
      if tys == "text" then
        match getField message "text" with
        | .str s =>
          if jsTrim s == "" then .error .invalid_payload
          else .ok (.obj [("text", .str s)])
        | _ => .error .invalid_payload
      else if tys == "media" then
        let mediaUrl := getField message "mediaUrl"
        let caption := getField message "caption"
        let mimetype := getField message "mimetype"
        let mediaType := getField message "mediaType"
        if !truthy mediaUrl || jsTypeof mediaUrl != "string" then
          .error .invalid_payload
        else
          let ty :=
            match mediaType with
            | .str t => if truthy (.str t) && ALLOWED_MEDIA_TYPES.contains t then t else "image"
            | _ => "image"
          let inner :=
            if truthy mimetype then [("url", mediaUrl), ("mimetype", mimetype)]
            else [("url", mediaUrl)]
          let content :=
            if truthy caption then [(ty, JSValue.obj inner), ("caption", caption)]
            else [(ty, JSValue.obj inner)]
          .ok (.obj content)
      else if tys == "template" then .ok message
      else .error .invalid_payload
    | _ => .error .invalid_payload

/-! ## The Instance Catalog (`InstanceStore`) -/

/-- An instance record `{ id, status, metadata }`. The status is kept as a
JS value because `InstanceStore.init` copies whatever truthy status the
persisted file holds, without validation. -/
structure InstanceRec where
  id : String
  status : JSValue
  metadata : JSValue
  deriving Repr

/-- A record as parsed from the persisted `instances.json` file. -/
structure RawInstance where
  id : String
  status : JSValue
  metadata : JSValue
  deriving Repr

/-- The state of an `InstanceStore`: the in-memory `instances` map
(insertion ordered, keyed by id) and the catalog snapshot last written to
`instances.json` by `save()` (`none` while this process has not yet
saved). -/
structure Store where
  instances : List (String × InstanceRec)
  fileContents : Option (List InstanceRec)
  deriving Repr

/-- `InstanceStore.list()`. -/
def Store.list (st : Store) : List InstanceRec := st.instances.map Prod.snd

/-- `InstanceStore.save()`: rewrite the whole catalog file from the
in-memory map. -/
def Store.save (st : Store) : Store := { st with fileContents := some st.list }

/-- `InstanceStore.get(id)` (`null` becomes `none`). -/
def Store.get (st : Store) (id : String) : Option InstanceRec :=
  lookupField st.instances id

/-- `InstanceStore.init()` applied to the parsed file: each parsed record
is inserted with `status: instance.status || 'pending_qr'` and
`metadata: instance.metadata || {}`. Note that a truthy status from the
file is taken verbatim, without validation. -/
def Store.init (parsed : List RawInstance) : Store :=
  { instances := parsed.foldl (fun m r =>
      mapSet m r.id
        { id := r.id
          status := if truthy r.status then r.status else .str "pending_qr"
          metadata := if truthy r.metadata then r.metadata else .obj [] }) []
    fileContents := none }

/-- `InstanceStore.create({id, metadata})`: reject a falsy (empty) id with
a code-less error, reject a duplicate id with `instance_exists`, otherwise
insert `{id, status: 'pending_qr', metadata: metadata || {}}` and save.
The JS method mutates `this.instances` only after both checks, so an error
leaves the caller's store untouched; the embedding returns the new store
only on success. -/
def Store.create (st : Store) (id : String) (metadata : JSValue) :
    Except ErrCode (Store × InstanceRec) :=
  if id == "" then .error .missing_field
  else if (lookupField st.instances id).isSome then .error .instance_exists
  else
    let inst : InstanceRec :=
      { id := id, status := .str "pending_qr"
        metadata := if truthy metadata then metadata else .obj [] }
    .ok (Store.save { st with instances := mapSet st.instances id inst }, inst)

/-- `InstanceStore.delete(id)`: remove the binding, save only when
something was removed, and return whether it existed. -/
def Store.delete (st : Store) (id : String) : Store × Bool :=
  let existed := (lookupField st.instances id).isSome
  let st' := { st with instances := mapDelete st.instances id }
  (if existed then st'.save else st', existed)

/-- `InstanceStore.updateStatus(id, status)`: reject a status outside
`ALLOWED_STATUSES` with `invalid_status` before any lookup; return `none`
without saving when the id is absent; otherwise overwrite the record's
status and save. -/
def Store.updateStatus (st : Store) (id : String) (status : JSValue) :
    Except ErrCode (Store × Option InstanceRec) :=
  if allowedStatus status = false then .error .invalid_status
  else
    match lookupField st.instances id with
    | none => .ok (st, none)
    | some inst =>
      let inst' := { inst with status := status }
      .ok (Store.save { st with instances := mapSet st.instances id inst' }, some inst')

/-- `InstanceStore.updateMetadata(id, metadata)`: replace the metadata
wholesale (`metadata || {}`) and save; `none` without saving when the id
is absent. -/
def Store.updateMetadata (st : Store) (id : String) (metadata : JSValue) :
    Store × Option InstanceRec :=
  match lookupField st.instances id with
  | none => (st, none)
  | some inst =>
    let inst' := { inst with metadata := if truthy metadata then metadata else .obj [] }
    (Store.save { st with instances := mapSet st.instances id inst' }, some inst')

/-! ## The Session Registry and connection-event reconciler
(`BaileysManager`) -/

/-- `QR_EXPIRATION_MS = 2 * 60 * 1000`. -/
def QR_EXPIRATION_MS : Int := 2 * 60 * 1000

/-- Modelled from the spec: `DisconnectReason.loggedOut`, the terminal
logged-out reason code of the external Baileys client library (not part of
this repository). Only its identity matters to the service: the reconciler
compares the disconnect status code against it. -/
def DisconnectReason_loggedOut : Int := 401

/-- The QR payload stored in a session: `{type: 'base64', value, expiresAt}`. -/
structure QRPayload where
  type : String
  value : String
  expiresAt : Int
  deriving Repr

/-- A live session entry: the external socket handle (modelled by its
presence, `session?.sock`), the save-credentials callback being external,
the current QR payload, and the most recent raw connection phase. -/
structure Session where
  hasSock : Bool
  qr : Option QRPayload
  connection : String
  deriving Repr

/-- The state a `BaileysManager` owns or durably touches: the instance
store, the in-memory `sessions` map, and the set of instance ids whose
durable credential directory (`data/sessions/<id>`) currently exists. -/
structure ManagerState where
  store : Store
  sessions : List (String × Session)
  authDirs : List String
  deriving Repr

/-- A `connection.update` event as the reconciler reads it: `update.qr`
(`none` when absent or falsy), `update.connection` (`none` when absent or
falsy), and `update.lastDisconnect?.error?.output?.statusCode`. -/
structure ConnUpdate where
  qr : Option String
  connection : Option String
  lastDisconnectCode : Option Int
  deriving Repr

/-- The catalog effect of `store.updateStatus` inside an event handler:
the reconciler only ever passes the literals `'pending_qr'`, `'ready'` and
`'disconnected'`, so the error branch is unreachable there (handler
failures would anyway be logged and swallowed by the listener wrapper). -/
def storeStatusEffect (st : Store) (id : String) (status : JSValue) : Store :=
  match st.updateStatus id status with
  | .ok (st', _) => st'
  | .error _ => st

/-- Whether a character list starts with another. -/
def startsWithChars : List Char → List Char → Bool
  | _, [] => true
  | [], _ :: _ => false
  | h :: t, nh :: nt => h == nh && startsWithChars t nt

/-- Whether a character list contains another as a contiguous run. -/
def containsChars : List Char → List Char → Bool
  | [], needle => needle.isEmpty
  | h :: t, needle => startsWithChars (h :: t) needle || containsChars t needle

/-- The `/not logged in/i.test(error.message)` check of `cleanupSession`:
a case-insensitive substring match. -/
def msgMatchesNotLoggedIn (msg : String) : Bool :=
  containsChars (msg.data.map Char.toLower) "not logged in".data

/-- `BaileysManager.cleanupSession(instanceId, {keepData})`: best-effort
logout (its failure is only logged, and not even that when the message
matches `/not logged in/i`), best-effort transport close (failure
discarded), unconditional removal of the in-memory session, and — only
when `keepData` is false — recursive removal of the credential directory.
`logoutError`/`wsCloseError` are the outcomes of the two external calls
(`none` = no exception); the returned list holds the warning messages
logged. -/
def cleanupSession (st : ManagerState) (instanceId : String) (keepData : Bool)
    (logoutError : Option String) (wsCloseError : Option String) :
    ManagerState × List String :=
  let warnings :=
    match lookupField st.sessions instanceId with
    | some session =>
      if session.hasSock then
        (match logoutError with
         | some msg => if msgMatchesNotLoggedIn msg then [] else [msg]
         | none => []) ++
        (match wsCloseError with
         | some _ => []    -- `catch {}`: the transport-close error is discarded
         | none => [])
      else []
    | none => []
  let st' := { st with sessions := mapDelete st.sessions instanceId }
  let st'' :=
    if keepData then st'
    else { st' with authDirs := st'.authDirs.filter (fun d => !(d == instanceId)) }
  (st'', warnings)

/-- The `if (update.qr)` block of `handleConnectionUpdate`: store a fresh
QR payload (`expiresAt = now + QR_EXPIRATION_MS`, encoded by the external
`QRCode.toDataURL` modelled by `encode`) and set status `pending_qr`;
returns the state plus the (possibly updated) session the handler keeps
referring to. -/
def handleQRStage (st : ManagerState) (instanceId : String) (session : Session)
    (qrEvent : Option String) (now : Int) (encode : String → String) :
    ManagerState × Session :=
  match qrEvent with
  | some qrText =>
    let session' := { session with
      qr := some { type := "base64", value := encode qrText
                   expiresAt := now + QR_EXPIRATION_MS } }
    ({ st with
        sessions := mapSet st.sessions instanceId session'
        store := storeStatusEffect st.store instanceId (.str "pending_qr") },
     session')
  | none => (st, session)

/-- The `if (update.connection)` block of `handleConnectionUpdate`: record
the phase on the session; on `open` clear the QR and set status `ready`;
on `close` set status `disconnected`, and when the disconnect code equals
`DisconnectReason.loggedOut` additionally run full cleanup with credential
deletion. -/
def handleConnStage (st1 : ManagerState) (instanceId : String) (session1 : Session)
    (connEvent : Option String) (code : Option Int)
    (logoutError wsCloseError : Option String) : ManagerState :=
  match connEvent with
  | none => st1
  | some conn =>
    let session2 := { session1 with connection := conn }
    let st2 := { st1 with sessions := mapSet st1.sessions instanceId session2 }
    if conn == "open" then
      let session3 := { session2 with qr := none }
      { st2 with
          sessions := mapSet st2.sessions instanceId session3
          store := storeStatusEffect st2.store instanceId (.str "ready") }
    else if conn == "close" then
      if code == some DisconnectReason_loggedOut then
        let st3 := { st2 with
          store := storeStatusEffect st2.store instanceId (.str "disconnected") }
        (cleanupSession st3 instanceId false logoutError wsCloseError).1
      else
        { st2 with
            store := storeStatusEffect st2.store instanceId (.str "disconnected") }
    else st2

/-- `BaileysManager.handleConnectionUpdate(instanceId, update)`: ignore
events for unknown sessions; otherwise run the `update.qr` block and then
the `update.connection` block on its result. `encode` is the external QR
encoder; `now` is `Date.now()`; `logoutError`/`wsCloseError` are the
outcomes of the external calls inside `cleanupSession`. -/
def handleConnectionUpdate (st : ManagerState) (instanceId : String)
    (update : ConnUpdate) (now : Int) (encode : String → String)
    (logoutError : Option String) (wsCloseError : Option String) : ManagerState :=
  match lookupField st.sessions instanceId with
  | none => st
  | some session =>
    let stage1 := handleQRStage st instanceId session update.qr now encode
    handleConnStage stage1.1 instanceId stage1.2 update.connection
      update.lastDisconnectCode logoutError wsCloseError

/-- `BaileysManager.getQRCode(instanceId)`: `none` when there is no
session or the session holds no QR; otherwise the payload with
`expiresIn = Math.max(0, Math.floor((expiresAt - Date.now()) / 1000))`
(integer division on `Int` rounds toward negative infinity for the
positive divisor, matching `Math.floor`). -/
def getQRCode (sessions : List (String × Session)) (instanceId : String)
    (now : Int) : Option (String × String × String × Int) :=
  match lookupField sessions instanceId with
  | none => none
  | some session =>
    match session.qr with
    | none => none
    | some qr =>
      let expiresIn := max 0 ((qr.expiresAt - now) / 1000)
      some (instanceId, qr.type, qr.value, expiresIn)

/-- The establishment path of `BaileysManager.initializeForInstance`:
requires the instance record (fails `instance_not_found` otherwise), then
connects the external client (`useMultiFileAuthState` creates the
credential directory; `initFails` models the external calls throwing) and
registers a fresh session whose initial connection phase is `'close'`. -/
def initSessionFresh (st : ManagerState) (instanceId : String)
    (initFails : Bool) : Except ErrCode (ManagerState × Session) :=
  match Store.get st.store instanceId with
  | none => .error .instance_not_found
  | some _ =>
    if initFails then .error .internal
    else
      let session : Session := { hasSock := true, qr := none, connection := "close" }
      .ok ({ st with
              sessions := mapSet st.sessions instanceId session
              authDirs := st.authDirs.insert instanceId },
           session)

/-- `BaileysManager.initializeForInstance(instanceId)`: return the
existing session if it has a socket, otherwise establish a new one. -/
def initForInstance (st : ManagerState) (instanceId : String)
    (initFails : Bool) : Except ErrCode (ManagerState × Session) :=
  match lookupField st.sessions instanceId with
  | some existing =>
    if existing.hasSock then .ok (st, existing)
    else initSessionFresh st instanceId initFails
  | none => initSessionFresh st instanceId initFails

/-- `BaileysManager.getOrCreateSession(instanceId)`: any registered
session is returned as-is; otherwise defer to `initializeForInstance`. -/
def getOrCreateSession (st : ManagerState) (instanceId : String)
    (initFails : Bool) : Except ErrCode (ManagerState × Session) :=
  match lookupField st.sessions instanceId with
  | some session => .ok (st, session)
  | none => initForInstance st instanceId initFails

/-! ## The `POST /messages` route -/

/-- The coded HTTP responses of `app.post('/messages')`. -/
inductive MessagesResponse where
  | badRequest (code : ErrCode)   -- 400 invalid payload / invalid content
  | notFound                      -- 404 unknown instance
  | initError                     -- 500 session initialization failed
  | notReady                      -- 409 `instance_not_ready`
  | sendError                     -- 500 the external send threw
  | accepted (messageId : JSValue)  -- 202 {messageId, status: 'queued', ...}
  deriving Repr

/-- Result of one `POST /messages` request: the HTTP response, the manager
state afterwards, and the `(jid, content)` argument passed to the external
client's `sock.sendMessage` — `none` when the send capability was never
invoked. -/
structure MessagesOutcome where
  response : MessagesResponse
  finalState : ManagerState
  sent : Option (String × JSValue)
  deriving Repr

/-- `app.post('/messages')`: validate `instanceId`/`to`/`type` as
non-empty strings, look the instance up, get or create its session
(`initFails` models the external connect throwing), require the latest
connection phase to be `'open'`, build the content, normalize the
destination (`to.includes('@') ? to : to + '@s.whatsapp.net'`), and
delegate to the external send capability (`sendResult` models its
outcome); a successful send yields 202 with
`messageId = result.key?.id || ''` and status `'queued'`. -/
def postMessages (st : ManagerState) (body : JSValue) (initFails : Bool)
    (sendResult : Except String JSValue) : MessagesOutcome :=
  let payload := if truthy body then body else .obj []
  match getField payload "instanceId" with
  | .str iid =>
    if iid == "" then ⟨.badRequest .invalid_payload, st, none⟩
    else
      match getField payload "to" with
      | .str toStr =>
        if toStr == "" then ⟨.badRequest .invalid_payload, st, none⟩
        else
          match getField payload "type" with
          | .str tyStr =>
            if tyStr == "" then ⟨.badRequest .invalid_payload, st, none⟩
            else
              match Store.get st.store iid with
              | none => ⟨.notFound, st, none⟩
              | some _ =>
                match getOrCreateSession st iid initFails with
                | .error _ => ⟨.initError, st, none⟩
                | .ok (st', session) =>
                  if session.connection != "open" then ⟨.notReady, st', none⟩
                  else
                    match buildMessageContent payload with
                    | .error e => ⟨.badRequest e, st', none⟩
                    | .ok content =>
                      let jid :=
                        if toStr.data.contains '@' then toStr
                        else toStr ++ "@s.whatsapp.net"
                      match sendResult with
                      | .error _ => ⟨.sendError, st', some (jid, content)⟩
                      | .ok result =>
                        let keyId := getField (getField result "key") "id"
                        let messageId := if truthy keyId then keyId else .str ""
                        ⟨.accepted messageId, st', some (jid, content)⟩
          | _ => ⟨.badRequest .invalid_payload, st, none⟩
      | _ => ⟨.badRequest .invalid_payload, st, none⟩
  | _ => ⟨.badRequest .invalid_payload, st, none⟩

/-! ## Reachable states of the catalog -/

/-- One state-mutating event of the system, as the catalog sees them: the
store operations driven by the HTTP surface and the asynchronous
`connection.update` events consumed by the reconciler. -/
inductive SystemOp where
  | create (id : String) (metadata : JSValue)
  | deleteInstance (id : String)
  | updateStatus (id : String) (status : JSValue)
  | updateMetadata (id : String) (metadata : JSValue)
  | connUpdate (id : String) (update : ConnUpdate) (now : Int)
      (encode : String → String) (logoutError : Option String)
      (wsCloseError : Option String)

/-- Application of one `SystemOp` to the manager state. Store operations
that throw leave the state with the caller (the HTTP layer maps them to
error responses without further mutation). -/
def applySystemOp (st : ManagerState) : SystemOp → ManagerState
  | .create id md =>
    match st.store.create id md with
    | .ok (store', _) => { st with store := store' }
    | .error _ => st
  | .deleteInstance id => { st with store := (st.store.delete id).1 }
  | .updateStatus id s =>
    match st.store.updateStatus id s with
    | .ok (store', _) => { st with store := store' }
    | .error _ => st
  | .updateMetadata id md => { st with store := (st.store.updateMetadata id md).1 }
  | .connUpdate id u now enc logoutError wsCloseError =>
    handleConnectionUpdate st id u now enc logoutError wsCloseError

/-- The catalog invariant of claim C2: every record's status is one of the
three allowed enum values. -/
def statusesValid (st : Store) : Bool :=
  st.instances.all (fun p => allowedStatus p.2.status)

/-! ## Association-map lemmas -/

variable {α : Type}

lemma lookupField_mapSet_self (m : List (String × α)) (k : String) (v : α) :
    lookupField (mapSet m k v) k = some v := by
  induction m with
  | nil => simp [mapSet, lookupField]
  | cons hd tl ih =>
    obtain ⟨a, b⟩ := hd
    by_cases ha : a = k
    · simp [mapSet, lookupField, ha]
    · simp [mapSet, lookupField, ha, ih]

lemma lookupField_mapSet_ne (m : List (String × α)) (k : String) (v : α)
    (k' : String) (h : k' ≠ k) :
    lookupField (mapSet m k v) k' = lookupField m k' := by
  have h' : ¬ (k = k') := fun hh => h hh.symm
  induction m with
  | nil => simp [mapSet, lookupField, h']
  | cons hd tl ih =>
    obtain ⟨a, b⟩ := hd
    by_cases ha : a = k
    · subst ha
      simp [mapSet, lookupField, h']
    · simp [mapSet, lookupField, ha, ih]

lemma lookupField_mapDelete_ne (m : List (String × α)) (k k' : String) (h : k' ≠ k) :
    lookupField (mapDelete m k) k' = lookupField m k' := by
  induction m with
  | nil => simp [mapDelete]
  | cons hd tl ih =>
    obtain ⟨a, b⟩ := hd
    by_cases ha : a = k
    · subst ha
      have h' : ¬ (a = k') := fun hh => h (hh ▸ rfl)
      simp [mapDelete, lookupField, h']
    · by_cases ha' : a = k'
      · simp [mapDelete, lookupField, ha, ha', h]
      · simp [mapDelete, lookupField, ha, ha', ih]

lemma mapDelete_of_lookup_none (m : List (String × α)) (k : String)
    (h : lookupField m k = none) : mapDelete m k = m := by
  induction m with
  | nil => simp [mapDelete]
  | cons hd tl ih =>
    obtain ⟨a, b⟩ := hd
    by_cases ha : a = k
    · simp [lookupField, ha] at h
    · simp only [lookupField, beq_iff_eq, ha, if_false] at h
      simp [mapDelete, ha, ih h]

lemma lookupField_eq_none_of_not_mem_keys (m : List (String × α)) (k : String)
    (h : k ∉ m.map Prod.fst) : lookupField m k = none := by
  induction m with
  | nil => simp [lookupField]
  | cons hd tl ih =>
    obtain ⟨a, b⟩ := hd
    simp only [List.map_cons, List.mem_cons] at h
    push_neg at h
    have ha : ¬ (a = k) := fun hh => h.1 hh.symm
    simp [lookupField, ha, ih h.2]

lemma lookupField_mapDelete_self (m : List (String × α)) (k : String)
    (h : (m.map Prod.fst).Nodup) : lookupField (mapDelete m k) k = none := by
  induction m with
  | nil => simp [mapDelete, lookupField]
  | cons hd tl ih =>
    obtain ⟨a, b⟩ := hd
    simp only [List.map_cons, List.nodup_cons] at h
    by_cases ha : a = k
    · simp only [mapDelete, beq_iff_eq, ha, if_true]
      exact lookupField_eq_none_of_not_mem_keys tl k (ha ▸ h.1)
    · simp [mapDelete, lookupField, ha, ih h.2]

lemma mem_of_mem_mapSet (m : List (String × α)) (k : String) (v : α)
    (x : String × α) (h : x ∈ mapSet m k v) : x ∈ m ∨ x = (k, v) := by
  induction m with
  | nil =>
    simp [mapSet] at h
    exact Or.inr h
  | cons hd tl ih =>
    obtain ⟨a, b⟩ := hd
    by_cases ha : a = k
    · simp only [mapSet, beq_iff_eq, ha, if_true] at h
      rcases List.mem_cons.mp h with h | h
      · right; exact h
      · left; exact List.mem_cons_of_mem _ h
    · simp only [mapSet, beq_iff_eq, ha, if_false] at h
      rcases List.mem_cons.mp h with h | h
      · left; exact h ▸ List.mem_cons_self _ _
      · rcases ih h with h | h
        · left; exact List.mem_cons_of_mem _ h
        · right; exact h

lemma mem_of_mem_mapDelete (m : List (String × α)) (k : String)
    (x : String × α) (h : x ∈ mapDelete m k) : x ∈ m := by
  induction m with
  | nil => simp [mapDelete] at h
  | cons hd tl ih =>
    obtain ⟨a, b⟩ := hd
    by_cases ha : a = k
    · simp only [mapDelete, beq_iff_eq, ha, if_true] at h
      exact List.mem_cons_of_mem _ h
    · simp only [mapDelete, beq_iff_eq, ha, if_false] at h
      rcases List.mem_cons.mp h with h | h
      · exact h ▸ List.mem_cons_self _ _
      · exact List.mem_cons_of_mem _ (ih h)

lemma mem_keys_mapSet (m : List (String × α)) (k : String) (v : α) (a : String) :
    a ∈ (mapSet m k v).map Prod.fst ↔ a = k ∨ a ∈ m.map Prod.fst := by
  induction m with
  | nil => simp [mapSet]
  | cons hd tl ih =>
    obtain ⟨c, d⟩ := hd
    by_cases hc : c = k
    · simp only [mapSet, beq_iff_eq, hc, if_true]
      subst hc
      simp
    · simp only [mapSet, beq_iff_eq, hc, if_false]
      simp [ih]
      tauto

lemma keys_nodup_mapSet (m : List (String × α)) (k : String) (v : α)
    (h : (m.map Prod.fst).Nodup) : ((mapSet m k v).map Prod.fst).Nodup := by
  induction m with
  | nil => simp [mapSet]
  | cons hd tl ih =>
    obtain ⟨a, b⟩ := hd
    simp only [List.map_cons, List.nodup_cons] at h
    by_cases ha : a = k
    · simp only [mapSet, beq_iff_eq, ha, if_true, List.map_cons, List.nodup_cons]
      exact ⟨ha ▸ h.1, h.2⟩
    · simp only [mapSet, beq_iff_eq, ha, if_false, List.map_cons, List.nodup_cons]
      refine ⟨?_, ih h.2⟩
      intro hmem
      rcases (mem_keys_mapSet tl k v a).mp hmem with h1 | h1
      · exact ha h1
      · exact h.1 h1

lemma keys_nodup_mapDelete (m : List (String × α)) (k : String)
    (h : (m.map Prod.fst).Nodup) : ((mapDelete m k).map Prod.fst).Nodup := by
  induction m with
  | nil => simp [mapDelete]
  | cons hd tl ih =>
    obtain ⟨a, b⟩ := hd
    simp only [List.map_cons, List.nodup_cons] at h
    by_cases ha : a = k
    · simp only [mapDelete, beq_iff_eq, ha, if_true]
      exact h.2
    · simp only [mapDelete, beq_iff_eq, ha, if_false, List.map_cons, List.nodup_cons]
      refine ⟨?_, ih h.2⟩
      intro hmem
      rcases List.mem_map.mp hmem with ⟨x, hx, hxa⟩
      exact h.1 (List.mem_map.mpr ⟨x, mem_of_mem_mapDelete tl k x hx, hxa⟩)

/-! ## Branch lemmas for `buildMessageContent` -/

/-- A non-`undefined` field read only succeeds on an object. -/
lemma exists_obj_of_getField_str (v : JSValue) (k s : String)
    (h : getField v k = .str s) : ∃ fs, v = .obj fs := by
  cases v <;> simp [getField] at h ⊢

/-- The leading `payload.message` check: a falsy or non-object `message`
field is rejected regardless of `payload.type`. -/
lemma bmc_message_invalid (payload : JSValue)
    (h : (truthy (getField payload "message") &&
      (jsTypeof (getField payload "message") == "object")) = false) :
    buildMessageContent payload = .error .invalid_payload := by
  cases hm : getField payload "message" with
  | obj fs => rw [hm] at h; simp [truthy, jsTypeof] at h
  | undefined => simp [buildMessageContent, hm, truthy, jsTypeof]
  | null => simp [buildMessageContent, hm, truthy, jsTypeof]
  | bool b => simp [buildMessageContent, hm, truthy, jsTypeof]
  | num n => simp [buildMessageContent, hm, truthy, jsTypeof]
  | str s => simp [buildMessageContent, hm, truthy, jsTypeof]

/-- `text` branch, rejection: when no string `text` field with non-empty
trim is present, the payload is rejected. -/
lemma bmc_text_invalid (payload : JSValue)
    (ht : getField payload "type" = .str "text")
    (h : ∀ s, getField (getField payload "message") "text" = JSValue.str s → jsTrim s = "") :
    buildMessageContent payload = .error .invalid_payload := by
  cases hm : getField payload "message" with
  | obj fs =>
    cases htx : getField (JSValue.obj fs) "text" with
    | str s =>
      have hs : jsTrim s = "" := h s (hm ▸ htx)
      simp [buildMessageContent, hm, ht, truthy, jsTypeof, htx, hs]
    | _ => simp [buildMessageContent, hm, ht, truthy, jsTypeof, htx]
  | _ => exact bmc_message_invalid payload (by simp [hm, truthy, jsTypeof])

/-- `text` branch, acceptance: a string `text` field with non-empty trim is
returned verbatim, whitespace included. -/
lemma bmc_text_ok (payload : JSValue) (s : String)
    (ht : getField payload "type" = .str "text")
    (htx : getField (getField payload "message") "text" = .str s)
    (hs : jsTrim s ≠ "") :
    buildMessageContent payload = .ok (.obj [("text", .str s)]) := by
  obtain ⟨fs, hm⟩ := exists_obj_of_getField_str _ _ _ htx
  rw [hm] at htx
  simp [buildMessageContent, hm, ht, truthy, jsTypeof, htx, hs]

/-- `media` branch, rejection: a missing, non-string, or empty `mediaUrl`
is rejected. -/
lemma bmc_media_invalid (payload : JSValue)
    (ht : getField payload "type" = .str "media")
    (h : ∀ s, getField (getField payload "message") "mediaUrl" = JSValue.str s → s = "") :
    buildMessageContent payload = .error .invalid_payload := by
  cases hm : getField payload "message" with
  | obj fs =>
    cases hmu : getField (JSValue.obj fs) "mediaUrl" with
    | str s =>
      have hs : s = "" := h s (hm ▸ hmu)
      subst hs
      simp [buildMessageContent, hm, ht, truthy, jsTypeof, hmu]
    | _ => simp [buildMessageContent, hm, ht, truthy, jsTypeof, hmu]
  | _ => exact bmc_message_invalid payload (by simp [hm, truthy, jsTypeof])

/-- `media` branch, defaulting: with a non-empty string `mediaUrl` and no
recognized `mediaType`, the produced content is keyed by `image` and
carries the URL. -/
lemma bmc_media_default (payload : JSValue) (u : String)
    (ht : getField payload "type" = .str "media")
    (hmu : getField (getField payload "message") "mediaUrl" = .str u)
    (hu : u ≠ "")
    (hmt : ∀ t, getField (getField payload "message") "mediaType" = JSValue.str t →
      ALLOWED_MEDIA_TYPES.contains t = false) :
    ∃ inner rest,
      buildMessageContent payload = .ok (.obj (("image", JSValue.obj inner) :: rest)) ∧
      lookupField inner "url" = some (JSValue.str u) := by
  obtain ⟨fs, hm⟩ := exists_obj_of_getField_str _ _ _ hmu
  rw [hm] at hmu hmt
  have hred : buildMessageContent payload = .ok (.obj
      (let inner := if truthy (getField (JSValue.obj fs) "mimetype") then
          [("url", JSValue.str u), ("mimetype", getField (JSValue.obj fs) "mimetype")]
         else [("url", JSValue.str u)]
       if truthy (getField (JSValue.obj fs) "caption") then
          [("image", JSValue.obj inner), ("caption", getField (JSValue.obj fs) "caption")]
       else [("image", JSValue.obj inner)])) := by
    cases hmtv : getField (JSValue.obj fs) "mediaType" with
    | str t =>
      have hct : t ∉ ALLOWED_MEDIA_TYPES := by simpa using hmt t hmtv
      simp [buildMessageContent, hm, ht, truthy, jsTypeof, hmu, hu, hmtv, hct]
    | undefined => simp [buildMessageContent, hm, ht, truthy, jsTypeof, hmu, hu, hmtv]
    | null => simp [buildMessageContent, hm, ht, truthy, jsTypeof, hmu, hu, hmtv]
    | bool b => simp [buildMessageContent, hm, ht, truthy, jsTypeof, hmu, hu, hmtv]
    | num n => simp [buildMessageContent, hm, ht, truthy, jsTypeof, hmu, hu, hmtv]
    | obj gs => simp [buildMessageContent, hm, ht, truthy, jsTypeof, hmu, hu, hmtv]
  by_cases hmi : truthy (getField (JSValue.obj fs) "mimetype") = true
  · by_cases hca : truthy (getField (JSValue.obj fs) "caption") = true
    · exact ⟨[("url", JSValue.str u), ("mimetype", getField (JSValue.obj fs) "mimetype")],
        [("caption", getField (JSValue.obj fs) "caption")],
        by rw [hred]; simp [hmi, hca], by simp [lookupField]⟩
    · exact ⟨[("url", JSValue.str u), ("mimetype", getField (JSValue.obj fs) "mimetype")],
        [], by rw [hred]; simp [hmi, hca], by simp [lookupField]⟩
  · by_cases hca : truthy (getField (JSValue.obj fs) "caption") = true
    · exact ⟨[("url", JSValue.str u)],
        [("caption", getField (JSValue.obj fs) "caption")],
        by rw [hred]; simp [hmi, hca], by simp [lookupField]⟩
    · exact ⟨[("url", JSValue.str u)], [],
        by rw [hred]; simp [hmi, hca], by simp [lookupField]⟩

/-- `template` branch: a truthy object `message` is passed through
verbatim. -/
lemma bmc_template_ok (payload : JSValue)
    (ht : getField payload "type" = .str "template")
    (h : (truthy (getField payload "message") &&
      (jsTypeof (getField payload "message") == "object")) = true) :
    buildMessageContent payload = .ok (getField payload "message") := by
  cases hm : getField payload "message" with
  | obj fs => simp [buildMessageContent, hm, ht, truthy, jsTypeof]
  | undefined => rw [hm] at h; simp [truthy, jsTypeof] at h
  | null => rw [hm] at h; simp [truthy, jsTypeof] at h
  | bool b => rw [hm] at h; simp [truthy, jsTypeof] at h
  | num n => rw [hm] at h; simp [truthy, jsTypeof] at h
  | str s => rw [hm] at h; simp [truthy, jsTypeof] at h

/-- Default branch: any `type` other than the three handled strings is
rejected. -/
lemma bmc_other_invalid (payload : JSValue)
    (h : ∀ t, getField payload "type" = JSValue.str t →
      t ≠ "text" ∧ t ≠ "media" ∧ t ≠ "template") :
    buildMessageContent payload = .error .invalid_payload := by
  cases hm : getField payload "message" with
  | obj fs =>
    cases ht : getField payload "type" with
    | str tys =>
      obtain ⟨h1, h2, h3⟩ := h tys ht
      simp [buildMessageContent, hm, ht, truthy, jsTypeof, h1, h2, h3]
    | _ => simp [buildMessageContent, hm, ht, truthy, jsTypeof]
  | _ => exact bmc_message_invalid payload (by simp [hm, truthy, jsTypeof])

/-! ## Claim C1 -/

/-- C1, counterexample: the claim asserts that for type `template` the
message payload is returned verbatim, and that for type `media` any present
string `mediaUrl` leads to media-kind defaulting; but a `template` payload
without a `message` object is rejected with `InvalidArgument`, and a
`media` payload whose `mediaUrl` is the (present, string) empty string is
also rejected rather than built. -/
theorem buildMessageContent_claim_cex :
    buildMessageContent (.obj [("type", .str "template")]) = .error .invalid_payload ∧
    buildMessageContent (.obj [("type", .str "media"),
      ("message", .obj [("mediaUrl", .str "")])]) = .error .invalid_payload :=
  ⟨rfl, rfl⟩

/-- C1 (amended): `buildMessageContent` is a pure function of its payload;
a payload whose `message` field is missing, falsy, or not an object fails
with `InvalidArgument` for every type; for type `text` it fails when
`message.text` is not a string or is empty after trimming; for type `media`
it fails when `message.mediaUrl` is missing, not a string, or the empty
string, and otherwise defaults the media kind to `image` whenever
`mediaType` is unspecified or not one of the recognized kinds; for type
`template` with a well-formed `message` it returns the message payload
verbatim; and for every other type value it fails with `InvalidArgument`. -/
theorem buildMessageContent_validation (payload : JSValue) :
    ((truthy (getField payload "message") &&
        (jsTypeof (getField payload "message") == "object")) = false →
      buildMessageContent payload = .error .invalid_payload) ∧
    (getField payload "type" = .str "text" →
      (∀ s, getField (getField payload "message") "text" = JSValue.str s → jsTrim s = "") →
      buildMessageContent payload = .error .invalid_payload) ∧
    (getField payload "type" = .str "media" →
      (∀ s, getField (getField payload "message") "mediaUrl" = JSValue.str s → s = "") →
      buildMessageContent payload = .error .invalid_payload) ∧
    (getField payload "type" = .str "media" →
      ∀ u, getField (getField payload "message") "mediaUrl" = .str u → u ≠ "" →
      (∀ t, getField (getField payload "message") "mediaType" = JSValue.str t →
        ALLOWED_MEDIA_TYPES.contains t = false) →
      ∃ inner rest,
        buildMessageContent payload = .ok (.obj (("image", JSValue.obj inner) :: rest)) ∧
        lookupField inner "url" = some (JSValue.str u)) ∧
    (getField payload "type" = .str "template" →
      (truthy (getField payload "message") &&
        (jsTypeof (getField payload "message") == "object")) = true →
      buildMessageContent payload = .ok (getField payload "message")) ∧
    ((∀ t, getField payload "type" = JSValue.str t →
        t ≠ "text" ∧ t ≠ "media" ∧ t ≠ "template") →
      buildMessageContent payload = .error .invalid_payload) :=
  ⟨bmc_message_invalid payload,
   bmc_text_invalid payload,
   bmc_media_invalid payload,
   fun ht u hmu hu hmt => bmc_media_default payload u ht hmu hu hmt,
   bmc_template_ok payload,
   bmc_other_invalid payload⟩

/-- C1, witness: the amended theorem applied to a concrete `template`
payload. -/
theorem buildMessageContent_validation_witness :
    buildMessageContent
      (.obj [("type", .str "template"), ("message", .obj [("a", .num 1)])]) =
      .ok (.obj [("a", .num 1)]) :=
  (buildMessageContent_validation
    (.obj [("type", .str "template"), ("message", .obj [("a", .num 1)])])).2.2.2.2.1
    rfl rfl

/-! ## Claim C10 -/

/-- C10: for a `text` payload whose `message.text` is a string with
non-empty trim, the returned content carries the original string
unmodified — leading and trailing whitespace are preserved. -/
theorem buildMessageContent_text_whitespace (payload : JSValue) (s : String)
    (ht : getField payload "type" = .str "text")
    (htx : getField (getField payload "message") "text" = .str s)
    (hs : jsTrim s ≠ "") :
    buildMessageContent payload = .ok (.obj [("text", .str s)]) :=
  bmc_text_ok payload s ht htx hs

/-- C10, witness: a text with surrounding whitespace is accepted and
returned with the whitespace intact. -/
theorem buildMessageContent_text_whitespace_witness :
    buildMessageContent
      (.obj [("type", .str "text"), ("message", .obj [("text", .str "  hi ")])]) =
      .ok (.obj [("text", .str "  hi ")]) :=
  buildMessageContent_text_whitespace
    (.obj [("type", .str "text"), ("message", .obj [("text", .str "  hi ")])])
    "  hi " rfl rfl (by decide)

/-! ## Claims C5, C6, C9: the catalog operations -/

/-- C5: `create(id, metadata)` fails with the code-less invalid-argument
error when the id is empty; fails with `instance_exists` when the id is
already present (leaving the store with the caller, hence the existing
record unchanged); and on success inserts a record with status
`pending_qr` and the supplied metadata (a falsy metadata argument defaults
to `{}`) and persists the whole catalog before returning. -/
theorem store_create_spec (st : Store) (id : String) (metadata : JSValue) :
    (id = "" → st.create id metadata = .error .missing_field) ∧
    (id ≠ "" → ∀ inst, lookupField st.instances id = some inst →
      st.create id metadata = .error .instance_exists) ∧
    (id ≠ "" → lookupField st.instances id = none →
      ∃ st' inst, st.create id metadata = .ok (st', inst) ∧
        inst.status = .str "pending_qr" ∧
        (truthy metadata = true → inst.metadata = metadata) ∧
        lookupField st'.instances id = some inst ∧
        st'.fileContents = some st'.list) := by
  refine ⟨?_, ?_, ?_⟩
  · intro h
    simp [Store.create, h]
  · intro h inst hl
    simp [Store.create, h, hl]
  · intro h hl
    refine ⟨Store.save { st with instances := mapSet st.instances id (InstanceRec.mk id (.str "pending_qr") (if truthy metadata then metadata else .obj [])) }, InstanceRec.mk id (.str "pending_qr") (if truthy metadata then metadata else .obj []), ?_, rfl, ?_, ?_, rfl⟩
    · simp [Store.create, h, hl]
    · intro ht
      simp [ht]
    · exact lookupField_mapSet_self st.instances id _

/-- C6: `updateStatus(id, status)` rejects any status outside the three
enum values with `invalid_status` before looking the id up (so the state
is unchanged even for absent ids); with a valid status and an absent id it
returns `none` with the state untouched and nothing persisted; otherwise
it overwrites exactly that record's status and persists the catalog. -/
theorem store_updateStatus_spec (st : Store) (id : String) (status : JSValue) :
    (allowedStatus status = false →
      st.updateStatus id status = .error .invalid_status) ∧
    (allowedStatus status = true → lookupField st.instances id = none →
      st.updateStatus id status = .ok (st, none)) ∧
    (allowedStatus status = true → ∀ inst, lookupField st.instances id = some inst →
      ∃ st', st.updateStatus id status = .ok (st', some { inst with status := status }) ∧
        lookupField st'.instances id = some { inst with status := status } ∧
        (∀ id', id' ≠ id → lookupField st'.instances id' = lookupField st.instances id') ∧
        st'.fileContents = some st'.list) := by
  refine ⟨?_, ?_, ?_⟩
  · intro h
    simp [Store.updateStatus, h]
  · intro h hl
    simp [Store.updateStatus, h, hl]
  · intro h inst hl
    refine ⟨Store.save { st with instances := mapSet st.instances id { inst with status := status } }, ?_, ?_, ?_, rfl⟩
    · simp [Store.updateStatus, h, hl]
    · exact lookupField_mapSet_self st.instances id _
    · intro id' hne
      exact lookupField_mapSet_ne st.instances id _ id' hne

/-- C9: `delete(id)` returns whether the record existed; deleting an
absent id is a no-op that raises no error; and deleting the same id twice
leaves the same state as deleting it once (the second call reports
`false`). The well-formedness hypothesis (distinct map keys) holds for
every store built through `init`/`create`/`delete`/updates. -/
theorem store_delete_idempotent (st : Store) (id : String)
    (hwf : (st.instances.map Prod.fst).Nodup) :
    (st.delete id).2 = (lookupField st.instances id).isSome ∧
    (lookupField st.instances id = none → (st.delete id).1 = st) ∧
    ((st.delete id).1.delete id).1 = (st.delete id).1 ∧
    ((st.delete id).1.delete id).2 = false := by
  cases hl : lookupField st.instances id with
  | none =>
    have hd := mapDelete_of_lookup_none st.instances id hl
    refine ⟨by simp [Store.delete, hl], fun _ => ?_, ?_, ?_⟩
    · simp [Store.delete, hl, hd]
    · simp [Store.delete, hl, hd]
    · simp [Store.delete, hl, hd]
  | some v =>
    have hafter : lookupField (mapDelete st.instances id) id = none :=
      lookupField_mapDelete_self st.instances id hwf
    refine ⟨by simp [Store.delete, hl], by simp, ?_, ?_⟩
    · simp [Store.delete, hl, Store.save, Store.list, hafter,
        mapDelete_of_lookup_none _ _ hafter]
    · simp [Store.delete, hl, Store.save, Store.list, hafter]

/-- C5, witness: creating a duplicate id fails with `instance_exists`. -/
theorem store_create_spec_witness :
    (Store.mk [("a", InstanceRec.mk "a" (.str "ready") (.obj []))] none).create "a" (.obj []) = .error .instance_exists :=
  (store_create_spec (Store.mk [("a", InstanceRec.mk "a" (.str "ready") (.obj []))] none) "a" (.obj [])).2.1 (by decide) (InstanceRec.mk "a" (.str "ready") (.obj [])) rfl

/-- C6, witness: an out-of-enum status is rejected with `invalid_status`
on an empty store. -/
theorem store_updateStatus_spec_witness :
    (Store.mk [] none).updateStatus "x" (.str "bogus") = .error .invalid_status :=
  (store_updateStatus_spec (Store.mk [] none) "x" (.str "bogus")).1 (by decide)

/-- C9, witness: deleting the same id twice equals deleting it once on a
concrete one-record store. -/
theorem store_delete_idempotent_witness :
    (((Store.mk [("a", InstanceRec.mk "a" (.str "ready") (.obj []))] none).delete "a").1.delete "a").1 = ((Store.mk [("a", InstanceRec.mk "a" (.str "ready") (.obj []))] none).delete "a").1 :=
  (store_delete_idempotent (Store.mk [("a", InstanceRec.mk "a" (.str "ready") (.obj []))] none) "a" (by decide)).2.2.1


/-! ## Claim C2: the catalog status invariant -/

lemma mem_of_lookupField_eq_some {α : Type} (m : List (String × α)) (k : String)
    (v : α) (h : lookupField m k = some v) : (k, v) ∈ m := by
  induction m with
  | nil => simp [lookupField] at h
  | cons hd tl ih =>
    obtain ⟨a, b⟩ := hd
    by_cases ha : a = k
    · simp [lookupField, ha] at h
      subst ha h
      exact List.mem_cons_self _ _
    · simp only [lookupField, beq_iff_eq, ha, if_false] at h
      exact List.mem_cons_of_mem _ (ih h)

lemma statusesValid_mem (st : Store) (h : statusesValid st = true) :
    ∀ p ∈ st.instances, allowedStatus p.2.status = true :=
  List.all_eq_true.mp h

lemma sv_updateStatus (st : Store) (id : String) (s : JSValue)
    (st' : Store) (r : Option InstanceRec)
    (h : statusesValid st = true) (hok : st.updateStatus id s = .ok (st', r)) :
    statusesValid st' = true := by
  unfold Store.updateStatus at hok
  by_cases ha : allowedStatus s = false
  · simp [ha] at hok
  · rw [if_neg ha] at hok
    cases hl : lookupField st.instances id with
    | none =>
      rw [hl] at hok
      simp only [Except.ok.injEq, Prod.mk.injEq] at hok
      exact hok.1 ▸ h
    | some inst =>
      rw [hl] at hok
      simp only [Except.ok.injEq, Prod.mk.injEq] at hok
      rw [← hok.1]
      refine List.all_eq_true.mpr ?_
      intro p hp
      rcases mem_of_mem_mapSet st.instances id _ p hp with hmem | hmem
      · exact statusesValid_mem st h p hmem
      · subst hmem
        simpa using ha

lemma sv_statusEffect (st : Store) (id : String) (s : JSValue)
    (h : statusesValid st = true) :
    statusesValid (storeStatusEffect st id s) = true := by
  unfold storeStatusEffect
  cases hres : st.updateStatus id s with
  | ok pair => exact sv_updateStatus st id s pair.1 pair.2 h (by rw [hres])
  | error e => exact h

lemma sv_create (st : Store) (id : String) (md : JSValue)
    (st' : Store) (r : InstanceRec)
    (h : statusesValid st = true) (hok : st.create id md = .ok (st', r)) :
    statusesValid st' = true := by
  unfold Store.create at hok
  by_cases hid : id == ""
  · simp [hid] at hok
  · rw [if_neg (by simpa using hid)] at hok
    by_cases hl : (lookupField st.instances id).isSome
    · simp [hl] at hok
    · rw [if_neg hl] at hok
      simp only [Except.ok.injEq, Prod.mk.injEq] at hok
      rw [← hok.1]
      refine List.all_eq_true.mpr ?_
      intro p hp
      rcases mem_of_mem_mapSet st.instances id _ p hp with hmem | hmem
      · exact statusesValid_mem st h p hmem
      · subst hmem
        rfl

lemma sv_delete (st : Store) (id : String) (h : statusesValid st = true) :
    statusesValid (st.delete id).1 = true := by
  unfold Store.delete
  by_cases hl : (lookupField st.instances id).isSome
  · simp only [hl, if_true]
    refine List.all_eq_true.mpr ?_
    intro p hp
    exact statusesValid_mem st h p (mem_of_mem_mapDelete st.instances id p hp)
  · simp only [hl, if_false]
    refine List.all_eq_true.mpr ?_
    intro p hp
    exact statusesValid_mem st h p (mem_of_mem_mapDelete st.instances id p hp)

lemma sv_updateMetadata (st : Store) (id : String) (md : JSValue)
    (h : statusesValid st = true) :
    statusesValid (st.updateMetadata id md).1 = true := by
  unfold Store.updateMetadata
  cases hl : lookupField st.instances id with
  | none => exact h
  | some inst =>
    refine List.all_eq_true.mpr ?_
    intro p hp
    rcases mem_of_mem_mapSet st.instances id _ p hp with hmem | hmem
    · exact statusesValid_mem st h p hmem
    · subst hmem
      exact statusesValid_mem st h (id, inst) (mem_of_lookupField_eq_some _ _ _ hl)

lemma sv_handleQRStage (st : ManagerState) (instanceId : String)
    (session : Session) (qrEvent : Option String) (now : Int)
    (encode : String → String) (h : statusesValid st.store = true) :
    statusesValid (handleQRStage st instanceId session qrEvent now encode).1.store = true := by
  cases qrEvent with
  | none => exact h
  | some qrText => exact sv_statusEffect _ _ _ h

lemma sv_handleConnStage (st1 : ManagerState) (instanceId : String)
    (session1 : Session) (connEvent : Option String) (code : Option Int)
    (le we : Option String) (h : statusesValid st1.store = true) :
    statusesValid (handleConnStage st1 instanceId session1 connEvent code le we).store = true := by
  cases connEvent with
  | none => exact h
  | some conn =>
    by_cases hco : conn = "open"
    · subst hco
      exact sv_statusEffect _ _ _ h
    · by_cases hcc : conn = "close"
      · subst hcc
        cases hcode : (code == some DisconnectReason_loggedOut) with
        | true =>
          simp only [handleConnStage, hcode]
          exact sv_statusEffect _ _ _ h
        | false =>
          simp only [handleConnStage, hcode]
          exact sv_statusEffect _ _ _ h
      · simp only [handleConnStage, (by simpa using hco : (conn == "open") = false),
          (by simpa using hcc : (conn == "close") = false)]
        exact h

lemma sv_handleConnectionUpdate (st : ManagerState) (id : String)
    (u : ConnUpdate) (now : Int) (enc : String → String)
    (le we : Option String) (h : statusesValid st.store = true) :
    statusesValid (handleConnectionUpdate st id u now enc le we).store = true := by
  unfold handleConnectionUpdate
  cases hl : lookupField st.sessions id with
  | none => exact h
  | some session =>
    exact sv_handleConnStage _ _ _ _ _ _ _ (sv_handleQRStage st id session u.qr now enc h)

lemma sv_applySystemOp (st : ManagerState) (op : SystemOp)
    (h : statusesValid st.store = true) :
    statusesValid (applySystemOp st op).store = true := by
  cases op with
  | create id md =>
    simp only [applySystemOp]
    cases hres : st.store.create id md with
    | ok pair => exact sv_create st.store id md pair.1 pair.2 h (by rw [hres])
    | error e => exact h
  | deleteInstance id =>
    simp only [applySystemOp]
    exact sv_delete st.store id h
  | updateStatus id s =>
    simp only [applySystemOp]
    cases hres : st.store.updateStatus id s with
    | ok pair => exact sv_updateStatus st.store id s pair.1 pair.2 h (by rw [hres])
    | error e => exact h
  | updateMetadata id md =>
    simp only [applySystemOp]
    exact sv_updateMetadata st.store id md h
  | connUpdate id u now enc le we => exact sv_handleConnectionUpdate st id u now enc le we h

lemma sv_init (parsed : List RawInstance)
    (hp : ∀ r ∈ parsed, truthy r.status = true → allowedStatus r.status = true) :
    statusesValid (Store.init parsed) = true := by
  suffices hgen : ∀ acc : List (String × InstanceRec),
      acc.all (fun p => allowedStatus p.2.status) = true →
      (parsed.foldl (fun m r =>
        mapSet m r.id
          { id := r.id
            status := if truthy r.status then r.status else .str "pending_qr"
            metadata := if truthy r.metadata then r.metadata else .obj [] }) acc).all
        (fun p => allowedStatus p.2.status) = true by
    exact hgen [] rfl
  induction parsed with
  | nil => intro acc hacc; exact hacc
  | cons r rest ih =>
    intro acc hacc
    simp only [List.foldl_cons]
    refine ih (fun x hx hxt => hp x (List.mem_cons_of_mem _ hx) hxt) _ ?_
    refine List.all_eq_true.mpr ?_
    intro p hpmem
    rcases mem_of_mem_mapSet acc r.id _ p hpmem with hmem | hmem
    · exact List.all_eq_true.mp hacc p hmem
    · subst hmem
      by_cases htr : truthy r.status = true
      · simpa [htr] using hp r (List.mem_cons_self _ _) htr
      · simp only [htr]
        simp [htr]
        rfl

/-- C2 (amended): starting from a load of a persisted file whose truthy
statuses are all valid (falsy statuses default to `pending_qr`), every
state reached through any sequence of create / delete / updateStatus /
updateMetadata operations and reconciliation events keeps every record's
status in {pending_qr, ready, disconnected}; and `updateStatus` rejects
every other status value with `invalid_status`. -/
theorem catalog_status_invariant (parsed : List RawInstance) (ops : List SystemOp)
    (sessions0 : List (String × Session)) (dirs0 : List String)
    (hp : ∀ r ∈ parsed, truthy r.status = true → allowedStatus r.status = true) :
    statusesValid (ops.foldl applySystemOp
      (ManagerState.mk (Store.init parsed) sessions0 dirs0)).store = true ∧
    (∀ st id s, allowedStatus s = false →
      Store.updateStatus st id s = .error .invalid_status) := by
  constructor
  · have hbase : statusesValid (ManagerState.mk (Store.init parsed) sessions0 dirs0).store = true :=
      sv_init parsed hp
    generalize (ManagerState.mk (Store.init parsed) sessions0 dirs0) = st0 at hbase ⊢
    induction ops generalizing st0 with
    | nil => exact hbase
    | cons op rest ih =>
      simp only [List.foldl_cons]
      exact ih _ (sv_applySystemOp st0 op hbase)
  · intro st id s hbad
    simp [Store.updateStatus, hbad]

/-- C2, counterexample: `InstanceStore.init` copies any truthy status
verbatim from the persisted file (`instance.status || 'pending_qr'`), so
loading a file holding status `"bogus"` yields a reachable catalog state
whose record carries a status outside the three enum values. -/
theorem catalog_status_claim_cex :
    lookupField (Store.init [RawInstance.mk "x" (.str "bogus") .undefined]).instances "x" = some (InstanceRec.mk "x" (.str "bogus") (.obj [])) ∧
    allowedStatus (.str "bogus") = false :=
  ⟨rfl, rfl⟩

/-- C2, witness: the invariant evaluated after a create and an
updateStatus from an empty load. -/
theorem catalog_status_invariant_witness :
    statusesValid (([SystemOp.create "a" (.obj []), SystemOp.updateStatus "a" (.str "ready")].foldl applySystemOp (ManagerState.mk (Store.init []) [] [])).store) = true :=
  (catalog_status_invariant [] [SystemOp.create "a" (.obj []), SystemOp.updateStatus "a" (.str "ready")] [] [] (by simp)).1


/-! ## Claim C3: the connection-phase reconciler -/

lemma statusEffect_lookup_some (st : Store) (id : String) (v : JSValue)
    (r : InstanceRec) (hrec : lookupField st.instances id = some r)
    (hv : allowedStatus v = true) :
    lookupField (storeStatusEffect st id v).instances id = some { r with status := v } := by
  unfold storeStatusEffect Store.updateStatus
  simp only [hv, Bool.true_eq_false, if_false, hrec]
  exact lookupField_mapSet_self st.instances id _

lemma stage1_lookup (st : ManagerState) (id : String) (session : Session)
    (uq : Option String) (now : Int) (enc : String → String)
    (hl : lookupField st.sessions id = some session) :
    lookupField (handleQRStage st id session uq now enc).1.sessions id =
      some (handleQRStage st id session uq now enc).2 := by
  cases uq with
  | none => exact hl
  | some qrText => exact lookupField_mapSet_self st.sessions id _

lemma stage1_authDirs (st : ManagerState) (id : String) (session : Session)
    (uq : Option String) (now : Int) (enc : String → String) :
    (handleQRStage st id session uq now enc).1.authDirs = st.authDirs := by
  cases uq <;> rfl

lemma stage1_store_rec (st : ManagerState) (id : String) (session : Session)
    (uq : Option String) (now : Int) (enc : String → String) (r : InstanceRec)
    (hrec : lookupField st.store.instances id = some r) :
    ∃ r1, lookupField (handleQRStage st id session uq now enc).1.store.instances id = some r1 := by
  cases uq with
  | none => exact ⟨r, hrec⟩
  | some qrText =>
    exact ⟨_, statusEffect_lookup_some st.store id (.str "pending_qr") r hrec rfl⟩

lemma stage1_wf (st : ManagerState) (id : String) (session : Session)
    (uq : Option String) (now : Int) (enc : String → String)
    (hwf : (st.sessions.map Prod.fst).Nodup) :
    ((handleQRStage st id session uq now enc).1.sessions.map Prod.fst).Nodup := by
  cases uq with
  | none => exact hwf
  | some qrText => exact keys_nodup_mapSet st.sessions id _ hwf

/-- C3: connection-phase reconciliation. With a registered session and a
catalog record for the instance: an `open` phase stores a session whose QR
payload is cleared and sets the record's status to `ready`; a `close`
phase sets the status to `disconnected`, and performs full cleanup —
session entry removed and credential directory deleted — exactly when the
disconnect cause is `DisconnectReason.loggedOut`, while for any other
cause the session entry (now in phase `close`) and the credential
directories are preserved. -/
theorem reconciler_phase_spec (st : ManagerState) (id : String) (session : Session)
    (r : InstanceRec) (uq : Option String) (code : Option Int) (now : Int)
    (enc : String → String) (le we : Option String)
    (hl : lookupField st.sessions id = some session)
    (hwf : (st.sessions.map Prod.fst).Nodup)
    (hrec : lookupField st.store.instances id = some r) :
    (∃ s', lookupField (handleConnectionUpdate st id (ConnUpdate.mk uq (some "open") code) now enc le we).sessions id = some s' ∧ s'.qr = none ∧ s'.connection = "open") ∧
    (∃ r', lookupField (handleConnectionUpdate st id (ConnUpdate.mk uq (some "open") code) now enc le we).store.instances id = some r' ∧ r'.status = .str "ready") ∧
    ((code == some DisconnectReason_loggedOut) = true →
      lookupField (handleConnectionUpdate st id (ConnUpdate.mk uq (some "close") code) now enc le we).sessions id = none ∧
      id ∉ (handleConnectionUpdate st id (ConnUpdate.mk uq (some "close") code) now enc le we).authDirs ∧
      ∃ r', lookupField (handleConnectionUpdate st id (ConnUpdate.mk uq (some "close") code) now enc le we).store.instances id = some r' ∧ r'.status = .str "disconnected") ∧
    ((code == some DisconnectReason_loggedOut) = false →
      (∃ s', lookupField (handleConnectionUpdate st id (ConnUpdate.mk uq (some "close") code) now enc le we).sessions id = some s' ∧ s'.connection = "close") ∧
      (handleConnectionUpdate st id (ConnUpdate.mk uq (some "close") code) now enc le we).authDirs = st.authDirs ∧
      ∃ r', lookupField (handleConnectionUpdate st id (ConnUpdate.mk uq (some "close") code) now enc le we).store.instances id = some r' ∧ r'.status = .str "disconnected") := by
  obtain ⟨r1, hr1⟩ := stage1_store_rec st id session uq now enc r hrec
  have hopen : handleConnectionUpdate st id (ConnUpdate.mk uq (some "open") code) now enc le we =
      handleConnStage (handleQRStage st id session uq now enc).1 id
        (handleQRStage st id session uq now enc).2 (some "open") code le we := by
    unfold handleConnectionUpdate
    rw [hl]
  have hclose : handleConnectionUpdate st id (ConnUpdate.mk uq (some "close") code) now enc le we =
      handleConnStage (handleQRStage st id session uq now enc).1 id
        (handleQRStage st id session uq now enc).2 (some "close") code le we := by
    unfold handleConnectionUpdate
    rw [hl]
  refine ⟨?_, ?_, ?_, ?_⟩
  · rw [hopen]
    exact ⟨_, lookupField_mapSet_self _ id _, rfl, rfl⟩
  · rw [hopen]
    exact ⟨_, statusEffect_lookup_some _ id (.str "ready") r1 hr1 rfl, rfl⟩
  · intro hcode
    rw [hclose]
    simp only [handleConnStage, hcode]
    refine ⟨?_, ?_, ?_⟩
    · exact lookupField_mapDelete_self _ id
        (keys_nodup_mapSet _ id _ (stage1_wf st id session uq now enc hwf))
    · simp [cleanupSession, List.mem_filter]
    · exact ⟨_, statusEffect_lookup_some _ id (.str "disconnected") r1 hr1 rfl, rfl⟩
  · intro hcode
    rw [hclose]
    simp only [handleConnStage, hcode]
    refine ⟨⟨_, lookupField_mapSet_self _ id _, rfl⟩, ?_, ?_⟩
    · exact stage1_authDirs st id session uq now enc
    · exact ⟨_, statusEffect_lookup_some _ id (.str "disconnected") r1 hr1 rfl, rfl⟩

/-- C3, witness: a `close` event with the logged-out cause on a concrete
one-session state removes the session and the credential directory. -/
theorem reconciler_phase_spec_witness :
    lookupField (handleConnectionUpdate (ManagerState.mk (Store.mk [("a", InstanceRec.mk "a" (.str "ready") (.obj []))] none) [("a", Session.mk true none "open")] ["a"]) "a" (ConnUpdate.mk none (some "close") (some DisconnectReason_loggedOut)) 0 (fun s => s) none none).sessions "a" = none ∧
    "a" ∉ (handleConnectionUpdate (ManagerState.mk (Store.mk [("a", InstanceRec.mk "a" (.str "ready") (.obj []))] none) [("a", Session.mk true none "open")] ["a"]) "a" (ConnUpdate.mk none (some "close") (some DisconnectReason_loggedOut)) 0 (fun s => s) none none).authDirs := by
  have h := reconciler_phase_spec
    (ManagerState.mk (Store.mk [("a", InstanceRec.mk "a" (.str "ready") (.obj []))] none) [("a", Session.mk true none "open")] ["a"])
    "a" (Session.mk true none "open") (InstanceRec.mk "a" (.str "ready") (.obj []))
    none (some DisconnectReason_loggedOut) 0 (fun s => s) none none rfl (by decide) rfl
  exact ⟨(h.2.2.1 rfl).1, (h.2.2.1 rfl).2.1⟩


/-! ## Claims C7, C8: QR reads and session cleanup -/

/-- C7: for a live session holding a QR payload, `getQRCode` returns the
payload with `expiresIn = max(0, floor((expiresAt - now)/1000))`; that
value is exactly 0 for every read at or after the expiry timestamp and
never negative; it is monotonically non-increasing as `now` advances; and
the result is absent when there is no session or the session holds no
QR. -/
theorem getQRCode_spec (sessions : List (String × Session)) (id : String)
    (session : Session) (qr : QRPayload) (now now1 now2 : Int) :
    (lookupField sessions id = some session → session.qr = some qr →
      getQRCode sessions id now = some (id, qr.type, qr.value, max 0 ((qr.expiresAt - now) / 1000)) ∧
      (qr.expiresAt ≤ now → getQRCode sessions id now = some (id, qr.type, qr.value, 0)) ∧
      0 ≤ max 0 ((qr.expiresAt - now) / 1000)) ∧
    (now1 ≤ now2 → max 0 ((qr.expiresAt - now2) / 1000) ≤ max 0 ((qr.expiresAt - now1) / 1000)) ∧
    (lookupField sessions id = none → getQRCode sessions id now = none) ∧
    (lookupField sessions id = some session → session.qr = none → getQRCode sessions id now = none) := by
  refine ⟨?_, ?_, ?_, ?_⟩
  · intro hl hq
    refine ⟨by simp [getQRCode, hl, hq], ?_, le_max_left _ _⟩
    intro hexp
    have hnp : qr.expiresAt - now ≤ 0 := by omega
    have hdiv : (qr.expiresAt - now) / 1000 ≤ 0 := by
      calc (qr.expiresAt - now) / 1000 ≤ 0 / 1000 :=
            Int.ediv_le_ediv (by norm_num) hnp
        _ = 0 := Int.zero_ediv 1000
    simp [getQRCode, hl, hq, max_eq_left hdiv]
  · intro h12
    exact max_le_max le_rfl (Int.ediv_le_ediv (by norm_num) (by omega))
  · intro hl
    simp [getQRCode, hl]
  · intro hl hq
    simp [getQRCode, hl, hq]

/-- C8: `cleanupSession(id, keepData)` removes the in-memory session
entry unconditionally; never touches the catalog; deletes the credential
directory exactly when `keepData` is false (other instances' directories
are preserved); its resulting state is independent of whether the external
logout or transport-close threw (errors are swallowed, the function is
total); and an already-logged-out error (`/not logged in/i`) produces no
warning, i.e. is treated as success. -/
theorem cleanupSession_spec (st : ManagerState) (id : String) (keepData : Bool)
    (le we : Option String)
    (hwf : (st.sessions.map Prod.fst).Nodup) :
    lookupField (cleanupSession st id keepData le we).1.sessions id = none ∧
    (cleanupSession st id keepData le we).1.store = st.store ∧
    (keepData = true → (cleanupSession st id keepData le we).1.authDirs = st.authDirs) ∧
    (keepData = false → id ∉ (cleanupSession st id keepData le we).1.authDirs ∧
      ∀ d, d ∈ st.authDirs → d ≠ id → d ∈ (cleanupSession st id keepData le we).1.authDirs) ∧
    (cleanupSession st id keepData le we).1 = (cleanupSession st id keepData none none).1 ∧
    (∀ msg, le = some msg → msgMatchesNotLoggedIn msg = true →
      (cleanupSession st id keepData le we).2 = []) := by
  refine ⟨?_, ?_, ?_, ?_, ?_, ?_⟩
  · cases keepData <;> exact lookupField_mapDelete_self st.sessions id hwf
  · cases keepData <;> rfl
  · intro hk
    subst hk
    rfl
  · intro hk
    subst hk
    constructor
    · simp [cleanupSession, List.mem_filter]
    · intro d hd hne
      simp [cleanupSession, List.mem_filter, hd, hne]
  · rfl
  · intro msg hle hmatch
    subst hle
    cases hs : lookupField st.sessions id with
    | none => simp [cleanupSession, hs]
    | some s =>
      cases hsock : s.hasSock with
      | false => simp [cleanupSession, hs, hsock]
      | true => cases we <;> simp [cleanupSession, hs, hsock, hmatch]

/-- C7, witness: a concrete unexpired QR payload read 1 second before
expiry. -/
theorem getQRCode_spec_witness :
    getQRCode [("a", Session.mk true (some (QRPayload.mk "base64" "v" 120000)) "open")] "a" 119000 = some ("a", "base64", "v", 1) := by
  have h := (getQRCode_spec [("a", Session.mk true (some (QRPayload.mk "base64" "v" 120000)) "open")] "a" (Session.mk true (some (QRPayload.mk "base64" "v" 120000)) "open") (QRPayload.mk "base64" "v" 120000) 119000 0 0).1 rfl rfl
  rw [h.1]
  decide

/-- C8, witness: a concrete cleanup with `keepData: false` and an
already-logged-out logout error removes the session and logs nothing. -/
theorem cleanupSession_spec_witness :
    lookupField (cleanupSession (ManagerState.mk (Store.mk [] none) [("a", Session.mk true none "open")] ["a", "b"]) "a" false (some "Error: Not Logged In") (some "boom")).1.sessions "a" = none ∧
    (cleanupSession (ManagerState.mk (Store.mk [] none) [("a", Session.mk true none "open")] ["a", "b"]) "a" false (some "Error: Not Logged In") (some "boom")).2 = [] := by
  have h := cleanupSession_spec (ManagerState.mk (Store.mk [] none) [("a", Session.mk true none "open")] ["a", "b"]) "a" false (some "Error: Not Logged In") (some "boom") (by decide)
  exact ⟨h.1, h.2.2.2.2.2 "Error: Not Logged In" rfl (by decide)⟩


/-! ## Claim C4: the send route -/

/-- C4: a well-formed send request whose instance has a registered
session: when the session's latest connection phase is not `open`, the
route answers `instance_not_ready` (409) and the external send capability
is never invoked (`sent = none`); when the phase is `open`, the content is
valid, and the external send succeeds, the route delegates the normalized
destination and built content to the send capability and answers 202 with
a message identifier and the `queued` acceptance status. -/
theorem postMessages_spec (st : ManagerState) (body : JSValue) (initFails : Bool)
    (sendResult : Except String JSValue) (iid toStr tyStr : String) (session : Session)
    (hb : truthy body = true)
    (hiid : getField body "instanceId" = .str iid) (hiid' : iid ≠ "")
    (hto : getField body "to" = .str toStr) (hto' : toStr ≠ "")
    (hty : getField body "type" = .str tyStr) (hty' : tyStr ≠ "")
    (hrec : (Store.get st.store iid).isSome = true)
    (hsess : lookupField st.sessions iid = some session) :
    (session.connection ≠ "open" →
      (postMessages st body initFails sendResult).response = .notReady ∧
      (postMessages st body initFails sendResult).sent = none) ∧
    (session.connection = "open" →
      ∀ content, buildMessageContent body = .ok content →
      ∀ result, sendResult = .ok result →
      ∃ mid, (postMessages st body initFails sendResult).response = .accepted mid ∧
        (postMessages st body initFails sendResult).sent =
          some ((if toStr.data.contains '@' then toStr else toStr ++ "@s.whatsapp.net"), content)) := by
  obtain ⟨r, hr⟩ := Option.isSome_iff_exists.mp hrec
  have hgs : getOrCreateSession st iid initFails = .ok (st, session) := by
    unfold getOrCreateSession
    rw [hsess]
  constructor
  · intro hco
    have hbne : (session.connection != "open") = true := by
      simpa using hco
    constructor <;>
      simp [postMessages, hb, hiid, hiid', hto, hto', hty, hty', hr, hgs, hbne]
  · intro hco content hcontent result hsend
    have hbne : (session.connection != "open") = false := by
      simpa using hco
    refine ⟨if truthy (getField (getField result "key") "id") then getField (getField result "key") "id" else .str "", ?_, ?_⟩ <;>
      simp [postMessages, hb, hiid, hiid', hto, hto', hty, hty', hr, hgs, hbne,
        hcontent, hsend]

/-- C4, witness: a request against a session in phase `close` is refused
with `instance_not_ready` and nothing is sent. -/
theorem postMessages_spec_witness :
    (postMessages (ManagerState.mk (Store.mk [("a", InstanceRec.mk "a" (.str "pending_qr") (.obj []))] none) [("a", Session.mk true none "close")] []) (.obj [("instanceId", .str "a"), ("to", .str "123"), ("type", .str "text"), ("message", .obj [("text", .str "hi")])]) false (.ok (.obj []))).response = .notReady ∧
    (postMessages (ManagerState.mk (Store.mk [("a", InstanceRec.mk "a" (.str "pending_qr") (.obj []))] none) [("a", Session.mk true none "close")] []) (.obj [("instanceId", .str "a"), ("to", .str "123"), ("type", .str "text"), ("message", .obj [("text", .str "hi")])]) false (.ok (.obj []))).sent = none := by
  have h := postMessages_spec
    (ManagerState.mk (Store.mk [("a", InstanceRec.mk "a" (.str "pending_qr") (.obj []))] none) [("a", Session.mk true none "close")] [])
    (.obj [("instanceId", .str "a"), ("to", .str "123"), ("type", .str "text"), ("message", .obj [("text", .str "hi")])])
    false (.ok (.obj [])) "a" "123" "text" (Session.mk true none "close")
    rfl rfl (by decide) rfl (by decide) rfl (by decide) rfl rfl
  exact h.1 (by decide)


end Baileys
